import Mathlib

/-!
Verification of the byte-level protocol core of `biofeed.py`: PMD feature
decoding, PMD ECG frame decoding, GATT Heart Rate decoding, OSC message
encoding, and the UDP dispatch policy.  Byte buffers are modelled as
`List Nat` (each element one byte value); fallible code paths (Python
exceptions such as `IndexError` / `AssertionError` / `OverflowError`)
are modelled with `Option`.
-/

namespace Biofeed

/-- `int.from_bytes(_, byteorder="little", signed=False)`: unsigned
little-endian integer of a byte list (least significant byte first). -/
def unsignedLE : List Nat → Nat
  | [] => 0
  | b :: rest => b + 256 * unsignedLE rest

/-- `int.from_bytes(_, byteorder="little", signed=True)`: two's-complement
signed little-endian integer of a byte list. -/
def signedLE (bs : List Nat) : ℤ :=
  let u := unsignedLE bs
  if 2 * u < 256 ^ bs.length then (u : ℤ) else (u : ℤ) - 256 ^ bs.length

/-- `convert_array_to_signed_int(data, offset, length)` from `biofeed.py`
(lines 96-98).  Python slicing `data[offset : offset + length]` truncates
silently at the end of the buffer, so the function is total. -/
def convert_array_to_signed_int (data : List Nat) (offset length : Nat) : ℤ :=
  signedLE ((data.drop offset).take length)

/-- `convert_to_unsigned_long(data, offset, length)` from `biofeed.py`
(lines 100-102). -/
def convert_to_unsigned_long (data : List Nat) (offset length : Nat) : Nat :=
  unsignedLE ((data.drop offset).take length)

/-- `flag(byte, n)` from `biofeed.py` line 58: `(byte & (1 << n)) != 0`. -/
def flag (byte n : Nat) : Bool :=
  byte &&& (1 <<< n) != 0

/-- The two module-level session logs `ecg_session_data` / `ecg_session_time`
(`biofeed.py` lines 78-79), bundled as one state value. -/
structure EcgState where
  ecg_session_data : List ℤ
  ecg_session_time : List Nat
  deriving Repr, DecidableEq

/-- One iteration's effect of the `while` loop body in `convert_ecg_data`:
`ecg_session_data.extend([ecg]); ecg_session_time.extend([timestamp])`. -/
def EcgState.push (st : EcgState) (ecg : ℤ) (timestamp : Nat) : EcgState :=
  { ecg_session_data := st.ecg_session_data ++ [ecg]
    ecg_session_time := st.ecg_session_time ++ [timestamp] }

/-- The `while offset < len(samples)` loop of `convert_ecg_data`
(`biofeed.py` lines 88-94): consume the sample region in strides of 3,
each stride decoded by `convert_array_to_signed_int(samples, offset, 3)`;
Python slicing makes a final stride of 1 or 2 leftover bytes decode as a
1- or 2-byte signed integer. -/
def ecgLoop (timestamp : Nat) : List Nat → EcgState → EcgState
  | [], st => st
  | [b1], st => st.push (signedLE [b1]) timestamp
  | [b1, b2], st => st.push (signedLE [b1, b2]) timestamp
  | b1 :: b2 :: b3 :: rest, st =>
      ecgLoop timestamp rest (st.push (signedLE [b1, b2, b3]) timestamp)

/-- The samples decoded from a sample region, as a pure list: strides of 3
bytes, and a final shorter stride when 1 or 2 bytes remain. -/
def ecgSamples : List Nat → List ℤ
  | [] => []
  | [b1] => [signedLE [b1]]
  | [b1, b2] => [signedLE [b1, b2]]
  | b1 :: b2 :: b3 :: rest => signedLE [b1, b2, b3] :: ecgSamples rest

/-- `convert_ecg_data(sender, data)` from `biofeed.py` lines 82-94, as a
transformer of the session-log state.  `data[0]` on an empty buffer raises
`IndexError`, modelled as `none`.  When `data[0] == 0x00` the timestamp is
`convert_to_unsigned_long(data, 1, 8)` and the sample region is `data[10:]`;
otherwise the state is untouched. -/
def convert_ecg_data (data : List Nat) (st : EcgState) : Option EcgState :=
  match data with
  | [] => none
  | d0 :: _ =>
      if d0 = 0x00 then
        some (ecgLoop (convert_to_unsigned_long data 1 8) (data.drop 10) st)
      else
        some st

lemma ecgLoop_eq (timestamp : Nat) :
    ∀ (l : List Nat) (st : EcgState),
      ecgLoop timestamp l st =
        { ecg_session_data := st.ecg_session_data ++ ecgSamples l
          ecg_session_time := st.ecg_session_time ++
            List.replicate (ecgSamples l).length timestamp }
  | [], st => by simp [ecgLoop, ecgSamples]
  | [b1], st => by simp [ecgLoop, ecgSamples, EcgState.push]
  | [b1, b2], st => by simp [ecgLoop, ecgSamples, EcgState.push]
  | b1 :: b2 :: b3 :: rest, st => by
      rw [ecgLoop, ecgLoop_eq timestamp rest]
      simp [ecgSamples, EcgState.push, List.replicate_succ]

lemma ecgSamples_length :
    ∀ l : List Nat, (ecgSamples l).length = (l.length + 2) / 3
  | [] => by simp [ecgSamples]
  | [b1] => by simp [ecgSamples]
  | [b1, b2] => by simp [ecgSamples]
  | b1 :: b2 :: b3 :: rest => by
      have ih := ecgSamples_length rest
      simp only [ecgSamples, List.length_cons, ih]
      omega

lemma signedLE_nil : signedLE [] = 0 := rfl

lemma ecgSamples_getD :
    ∀ (l : List Nat) (i : Nat),
      (ecgSamples l).getD i 0 = signedLE ((l.drop (3 * i)).take 3)
  | [], i => by
      rw [List.drop_nil, List.take_nil, signedLE_nil]
      simp [ecgSamples]
  | [b1], 0 => rfl
  | [b1], (i + 1) => by
      have h : List.drop (3 * (i + 1)) [b1] = [] :=
        List.drop_eq_nil_of_le
          (by simp only [List.length_cons, List.length_nil]; omega)
      rw [h, List.take_nil, signedLE_nil]
      simp [ecgSamples]
  | [b1, b2], 0 => rfl
  | [b1, b2], (i + 1) => by
      have h : List.drop (3 * (i + 1)) [b1, b2] = [] :=
        List.drop_eq_nil_of_le
          (by simp only [List.length_cons, List.length_nil]; omega)
      rw [h, List.take_nil, signedLE_nil]
      simp [ecgSamples]
  | b1 :: b2 :: b3 :: rest, 0 => rfl
  | b1 :: b2 :: b3 :: rest, (i + 1) => by
      have ih := ecgSamples_getD rest i
      have h : 3 * (i + 1) = 3 * i + 1 + 1 + 1 := by omega
      rw [h, List.drop_succ_cons, List.drop_succ_cons, List.drop_succ_cons]
      simpa [ecgSamples] using ih

/-! ### PMD feature decoder (`PolarFeatures`, `biofeed.py` lines 61-75) -/

/-- The capability flags decoded from a PMD control-point feature read
response (`PolarFeatures.__init__`). -/
structure PolarFeatures where
  ecg : Bool
  ppg : Bool
  acceleration : Bool
  pp_interval : Bool
  gyroscope : Bool
  magnetometer : Bool
  deriving Repr, DecidableEq

/-- `PolarFeatures(bytes)`: `assert bytes[0] == 0x0F` (an `AssertionError`,
or an `IndexError` on a buffer shorter than 2 bytes, is modelled as `none`),
then the flags of `byte = bytes[1]` at bit positions 0,1,2,3,5,6 (bit 4 is
reserved and never read). -/
def PolarFeatures.decode (bytes : List Nat) : Option PolarFeatures :=
  match bytes with
  | b0 :: b1 :: _ =>
      if b0 = 0x0F then
        some { ecg := flag b1 0
               ppg := flag b1 1
               acceleration := flag b1 2
               pp_interval := flag b1 3
               gyroscope := flag b1 5
               magnetometer := flag b1 6 }
      else none
  | _ => none

/-- Re-derive the feature bitfield from a decoded `PolarFeatures`, placing
each boolean back at its bit position. -/
def PolarFeatures.toBits (f : PolarFeatures) : Nat :=
  (if f.ecg then 1 else 0) + (if f.ppg then 2 else 0) +
  (if f.acceleration then 4 else 0) + (if f.pp_interval then 8 else 0) +
  (if f.gyroscope then 32 else 0) + (if f.magnetometer then 64 else 0)

/-! ### GATT Heart Rate decoder (`biofeed.py` lines 126-148) -/

/-- `GattHeartRateFlags` (`biofeed.py` lines 137-148): the flags bitfield of
the first byte of a Heart Rate Measurement notification. -/
structure GattHeartRateFlags where
  wide_int : Bool
  skin_contact_sensor : Bool
  skin_contact_detected : Bool
  energy_expended : Bool
  r_r_interval : Bool
  deriving Repr, DecidableEq

/-- `GattHeartRateFlags(byte)`: flag bits 0-4 (bits 5-7 unused). -/
def GattHeartRateFlags.ofByte (byte : Nat) : GattHeartRateFlags :=
  { wide_int := flag byte 0
    skin_contact_sensor := flag byte 1
    skin_contact_detected := flag byte 2
    energy_expended := flag byte 3
    r_r_interval := flag byte 4 }

/-- The `for i in range(2, len(bytes), 2)` loop of `GattHeartRate.__init__`
(`biofeed.py` lines 131-132), applied to `bytes[2:]`: consecutive 2-byte
little-endian unsigned integers, a trailing single byte decoding as a
1-byte integer (Python slice truncation). -/
def rrIntervals : List Nat → List Nat
  | [] => []
  | [b1] => [unsignedLE [b1]]
  | b1 :: b2 :: rest => unsignedLE [b1, b2] :: rrIntervals rest

/-- The decoded Heart Rate Measurement (`GattHeartRate`, `biofeed.py`
lines 126-135). -/
structure GattHeartRate where
  heart_rate : Nat
  rr_intervals : List Nat
  flags : GattHeartRateFlags
  deriving Repr, DecidableEq

/-- `GattHeartRate(bytes)`: `heart_rate = bytes[1]` (an `IndexError` on a
buffer shorter than 2 bytes is modelled as `none`), RR-intervals from
offset 2 to the end of the buffer, and the flags of `bytes[0]`.  Note the
flags are decoded but never consulted while parsing. -/
def GattHeartRate.decode (bytes : List Nat) : Option GattHeartRate :=
  match bytes with
  | b0 :: b1 :: rest =>
      some { heart_rate := b1
             rr_intervals := rrIntervals rest
             flags := GattHeartRateFlags.ofByte b0 }
  | _ => none

/-! ### OSC encoder and UDP dispatch (`biofeed.py` lines 216-241) -/

/-- `s.encode('ascii')`: the code points of `s` as bytes, failing
(`UnicodeEncodeError`, modelled as `none`) when a character is outside the
ASCII range. -/
def str_encode_ascii (s : String) : Option (List Nat) :=
  if s.data.all (fun c => c.toNat < 128) then
    some (s.data.map Char.toNat)
  else none

/-- `osc_string(s)` (`biofeed.py` lines 216-219): the ASCII bytes of `s`
followed by `4 - (len % 4)` null bytes. -/
def osc_string (s : String) : Option (List Nat) :=
  (str_encode_ascii s).map fun asc =>
    asc ++ List.replicate (4 - asc.length % 4) 0

/-- `value.to_bytes(4, 'big', signed=True)`: 4-byte big-endian
two's-complement encoding, failing (`OverflowError`, modelled as `none`)
when the value does not fit in a signed 32-bit integer. -/
def to_bytes_4_big_signed (value : ℤ) : Option (List Nat) :=
  if -(2 ^ 31) ≤ value ∧ value < 2 ^ 31 then
    let u := (value % (2 ^ 32 : ℤ)).toNat
    some [u / 2 ^ 24 % 256, u / 2 ^ 16 % 256, u / 2 ^ 8 % 256, u % 256]
  else none

/-- The datagram built by `send_osc_int(address_pattern, value)`
(`biofeed.py` lines 226-229): `osc_string(address_pattern) +
osc_string(',i') + value.to_bytes(4, 'big', signed=True)`. -/
def send_osc_int (address_pattern : String) (value : ℤ) : Option (List Nat) :=
  match osc_string address_pattern, osc_string ",i",
        to_bytes_4_big_signed value with
  | some a, some t, some v => some (a ++ t ++ v)
  | _, _, _ => none

/-- `send_hr_data_udp(sender, data)` (`biofeed.py` lines 231-241), modelled
as the ordered list of `(address_pattern, value)` calls made to
`send_osc_int`: decode `GattHeartRate(data)` (crash on short buffers is
`none`), then, only when `data[0] == 0x10`, one `/h10/hr` message with the
heart rate followed by one `/h10/rr` message per RR-interval in order. -/
def send_hr_data_udp (data : List Nat) : Option (List (String × Nat)) :=
  (GattHeartRate.decode data).map fun hr =>
    if data.headD 0 = 0x10 then
      ("/h10/hr", hr.heart_rate) :: hr.rr_intervals.map (fun rr => ("/h10/rr", rr))
    else []

/-! ### Helper lemmas shared by the claim theorems -/

lemma convert_ecg_data_cons_zero (rest : List Nat) (st : EcgState) :
    convert_ecg_data (0x00 :: rest) st =
      some (ecgLoop (convert_to_unsigned_long (0x00 :: rest) 1 8)
        ((0x00 :: rest).drop 10) st) := by
  simp [convert_ecg_data]

lemma convert_ecg_data_cons_nonzero (d0 : Nat) (rest : List Nat)
    (st : EcgState) (h : d0 ≠ 0x00) :
    convert_ecg_data (d0 :: rest) st = some st := by
  simp [convert_ecg_data, h]

lemma rrIntervals_eq_nil_iff :
    ∀ rest : List Nat, rrIntervals rest = [] ↔ rest = []
  | [] => by simp [rrIntervals]
  | [b1] => by simp [rrIntervals]
  | b1 :: b2 :: rest => by simp [rrIntervals]

set_option maxRecDepth 8192 in
lemma toBits_of_flags (b1 : Nat) (hb1 : b1 < 256) :
    PolarFeatures.toBits
      { ecg := flag b1 0, ppg := flag b1 1, acceleration := flag b1 2,
        pp_interval := flag b1 3, gyroscope := flag b1 5,
        magnetometer := flag b1 6 } = b1 &&& 0x6F := by
  revert hb1
  revert b1
  decide

/-! ### Claim theorems -/

/-- C1: for every PMD ECG notification buffer whose first byte is `0x00` and
whose sample region (bytes from offset 10 to the end) consists of exactly
`N` complete 3-byte groups, `convert_ecg_data` appends exactly `N` samples,
each the signed little-endian 3-byte two's-complement integer of its group,
all sharing the single timestamp read unsigned little-endian from bytes
1..8; sample bytes `01 00 00` decode to `1` and `FF FF FF` to `-1`. -/
theorem c1_ecg_frame_decode (d0 : Nat) (rest : List Nat) (st : EcgState)
    (N : Nat) (h0 : d0 = 0x00)
    (hlen : ((d0 :: rest).drop 10).length = 3 * N) :
    ∃ st', convert_ecg_data (d0 :: rest) st = some st' ∧
      st'.ecg_session_data =
        st.ecg_session_data ++ ecgSamples ((d0 :: rest).drop 10) ∧
      (ecgSamples ((d0 :: rest).drop 10)).length = N ∧
      st'.ecg_session_time = st.ecg_session_time ++
        List.replicate N (convert_to_unsigned_long (d0 :: rest) 1 8) ∧
      (∀ i : Nat, (ecgSamples ((d0 :: rest).drop 10)).getD i 0 =
        signedLE ((((d0 :: rest).drop 10).drop (3 * i)).take 3)) ∧
      signedLE [0x01, 0x00, 0x00] = 1 ∧ signedLE [0xFF, 0xFF, 0xFF] = -1 := by
  subst h0
  have hN : (ecgSamples ((0x00 :: rest).drop 10)).length = N := by
    rw [ecgSamples_length, hlen]
    omega
  refine ⟨_, convert_ecg_data_cons_zero rest st, ?_, hN, ?_,
    fun i => ecgSamples_getD _ i, by decide, by decide⟩
  · rw [ecgLoop_eq]
  · rw [ecgLoop_eq, hN]

/-- Witness for C1 at the spec's example: timestamp 1000, samples
`01 00 00` and `FF FF FF`. -/
theorem c1_ecg_frame_decode_witness :
    ∃ st', convert_ecg_data
        (0x00 :: [0xE8, 0x03, 0, 0, 0, 0, 0, 0, 0,
                  0x01, 0x00, 0x00, 0xFF, 0xFF, 0xFF]) ⟨[], []⟩ = some st' ∧
      st'.ecg_session_data = [] ++ ecgSamples
        ((0x00 :: [0xE8, 0x03, 0, 0, 0, 0, 0, 0, 0,
                   0x01, 0x00, 0x00, 0xFF, 0xFF, 0xFF]).drop 10) ∧
      (ecgSamples ((0x00 :: [0xE8, 0x03, 0, 0, 0, 0, 0, 0, 0,
                   0x01, 0x00, 0x00, 0xFF, 0xFF, 0xFF]).drop 10)).length = 2 ∧
      st'.ecg_session_time = [] ++ List.replicate 2
        (convert_to_unsigned_long
          (0x00 :: [0xE8, 0x03, 0, 0, 0, 0, 0, 0, 0,
                    0x01, 0x00, 0x00, 0xFF, 0xFF, 0xFF]) 1 8) ∧
      (∀ i : Nat, (ecgSamples ((0x00 :: [0xE8, 0x03, 0, 0, 0, 0, 0, 0, 0,
                    0x01, 0x00, 0x00, 0xFF, 0xFF, 0xFF]).drop 10)).getD i 0 =
        signedLE ((((0x00 :: [0xE8, 0x03, 0, 0, 0, 0, 0, 0, 0,
                    0x01, 0x00, 0x00, 0xFF, 0xFF, 0xFF]).drop 10).drop
                    (3 * i)).take 3)) ∧
      signedLE [0x01, 0x00, 0x00] = 1 ∧ signedLE [0xFF, 0xFF, 0xFF] = -1 :=
  c1_ecg_frame_decode 0x00
    [0xE8, 0x03, 0, 0, 0, 0, 0, 0, 0, 0x01, 0x00, 0x00, 0xFF, 0xFF, 0xFF]
    ⟨[], []⟩ 2 rfl (by decide)

/-- C5 counterexample: a frame whose sample region is the single byte `0x05`
(length 1, not a multiple of 3).  The claim says exactly `floor(1/3) = 0`
samples are produced; the code produces one sample (Python slice truncation
decodes the lone trailing byte), so the session log gains one entry. -/
theorem c5_counterexample :
    convert_ecg_data [0x00, 1, 0, 0, 0, 0, 0, 0, 0, 0, 0x05] ⟨[], []⟩ =
      some ⟨[5], [1]⟩ ∧
    (List.drop 10 [0x00, 1, 0, 0, 0, 0, 0, 0, 0, 0, 0x05]).length % 3 ≠ 0 ∧
    ¬ (([5] : List ℤ).length =
        (List.drop 10 [0x00, 1, 0, 0, 0, 0, 0, 0, 0, 0, 0x05]).length / 3) := by
  decide

/-- C5 amended: when the sample region length is not a multiple of 3,
`convert_ecg_data` raises no error and appends exactly
`floor(length/3) + 1` samples: sample `i` is the signed little-endian
decoding of the 3-byte group at offset `3*i` of the region (so the last
sample, at `i = floor(length/3)`, decodes the 1 or 2 incomplete trailing
bytes), and all appended timestamps equal the frame timestamp. -/
theorem c5_truncated_frame (d0 : Nat) (rest : List Nat) (st : EcgState)
    (h0 : d0 = 0x00)
    (hmod : ((d0 :: rest).drop 10).length % 3 ≠ 0) :
    ∃ st', convert_ecg_data (d0 :: rest) st = some st' ∧
      st'.ecg_session_data =
        st.ecg_session_data ++ ecgSamples ((d0 :: rest).drop 10) ∧
      (ecgSamples ((d0 :: rest).drop 10)).length =
        ((d0 :: rest).drop 10).length / 3 + 1 ∧
      (∀ i : Nat, (ecgSamples ((d0 :: rest).drop 10)).getD i 0 =
        signedLE ((((d0 :: rest).drop 10).drop (3 * i)).take 3)) ∧
      st'.ecg_session_time = st.ecg_session_time ++
        List.replicate (((d0 :: rest).drop 10).length / 3 + 1)
          (convert_to_unsigned_long (d0 :: rest) 1 8) := by
  subst h0
  have hN : (ecgSamples ((0x00 :: rest).drop 10)).length =
      ((0x00 :: rest).drop 10).length / 3 + 1 := by
    rw [ecgSamples_length]
    omega
  refine ⟨_, convert_ecg_data_cons_zero rest st, ?_, hN,
    fun i => ecgSamples_getD _ i, ?_⟩
  · rw [ecgLoop_eq]
  · rw [ecgLoop_eq, hN]

/-- Witness for C5's amended theorem at the counterexample's input. -/
theorem c5_truncated_frame_witness :
    ∃ st', convert_ecg_data
        (0x00 :: [1, 0, 0, 0, 0, 0, 0, 0, 0, 0x05]) ⟨[], []⟩ = some st' ∧
      st'.ecg_session_data = [] ++ ecgSamples
        ((0x00 :: [1, 0, 0, 0, 0, 0, 0, 0, 0, 0x05]).drop 10) ∧
      (ecgSamples ((0x00 :: [1, 0, 0, 0, 0, 0, 0, 0, 0, 0x05]).drop
        10)).length =
        ((0x00 :: [1, 0, 0, 0, 0, 0, 0, 0, 0, 0x05]).drop 10).length / 3
          + 1 ∧
      (∀ i : Nat, (ecgSamples ((0x00 :: [1, 0, 0, 0, 0, 0, 0, 0, 0,
          0x05]).drop 10)).getD i 0 =
        signedLE ((((0x00 :: [1, 0, 0, 0, 0, 0, 0, 0, 0, 0x05]).drop
          10).drop (3 * i)).take 3)) ∧
      st'.ecg_session_time = [] ++ List.replicate
        (((0x00 :: [1, 0, 0, 0, 0, 0, 0, 0, 0, 0x05]).drop 10).length / 3
          + 1)
        (convert_to_unsigned_long
          (0x00 :: [1, 0, 0, 0, 0, 0, 0, 0, 0, 0x05]) 1 8) :=
  c5_truncated_frame 0x00 [1, 0, 0, 0, 0, 0, 0, 0, 0, 0x05] ⟨[], []⟩ rfl
    (by decide)

/-- C10: on any non-empty buffer the ECG handler succeeds; the two session
logs stay equally long (given they were equally long before), both grow
append-only (old entries keep their positions), all timestamps appended by
one invocation are equal (a single `List.replicate`), and a buffer whose
first byte is not `0x00` leaves both logs entirely unchanged (the appended
block is `[]`). -/
theorem c10_session_log_invariant (d0 : Nat) (rest : List Nat)
    (st : EcgState)
    (hlen : st.ecg_session_data.length = st.ecg_session_time.length) :
    ∃ st', convert_ecg_data (d0 :: rest) st = some st' ∧
      st'.ecg_session_data.length = st'.ecg_session_time.length ∧
      st'.ecg_session_data = st.ecg_session_data ++
        (if d0 = 0x00 then ecgSamples ((d0 :: rest).drop 10) else []) ∧
      st'.ecg_session_time = st.ecg_session_time ++
        (if d0 = 0x00 then
          List.replicate (ecgSamples ((d0 :: rest).drop 10)).length
            (convert_to_unsigned_long (d0 :: rest) 1 8)
         else []) := by
  by_cases h : d0 = 0x00
  · subst h
    refine ⟨_, convert_ecg_data_cons_zero rest st, ?_, ?_, ?_⟩
    · rw [ecgLoop_eq]
      simp [hlen]
    · rw [ecgLoop_eq, if_pos rfl]
    · rw [ecgLoop_eq, if_pos rfl]
  · exact ⟨st, convert_ecg_data_cons_nonzero d0 rest st h,
      hlen, by rw [if_neg h, List.append_nil], by rw [if_neg h, List.append_nil]⟩

/-- Witness for C10 on a non-ECG frame (first byte `0x05`) with a non-empty
pre-existing log. -/
theorem c10_session_log_invariant_witness :
    ∃ st', convert_ecg_data [0x05, 1, 2] ⟨[7], [9]⟩ = some st' ∧
      st'.ecg_session_data.length = st'.ecg_session_time.length ∧
      st'.ecg_session_data = [7] ++
        (if (0x05 : Nat) = 0x00 then
          ecgSamples (List.drop 10 [0x05, 1, 2]) else []) ∧
      st'.ecg_session_time = [9] ++
        (if (0x05 : Nat) = 0x00 then
          List.replicate (ecgSamples (List.drop 10 [0x05, 1, 2])).length
            (convert_to_unsigned_long [0x05, 1, 2] 1 8)
         else []) :=
  c10_session_log_invariant 0x05 [1, 2] ⟨[7], [9]⟩ rfl

/-- C2 counterexample: a Heart Rate Measurement buffer with flags byte
`0x00` decodes fine, but `send_hr_data_udp` emits no message at all
(its `data[0] == 0x10` guard fails), contradicting "for every Heart Rate
Measurement notification buffer ... exactly one OSC message to /h10/hr". -/
theorem c2_counterexample :
    send_hr_data_udp [0x00, 72] = some [] ∧
    some ([] : List (String × Nat)) ≠ some [("/h10/hr", (72 : Nat))] := by
  constructor
  · rfl
  · decide

/-- C2 amended: for every Heart Rate Measurement buffer of at least 2 bytes,
`send_hr_data_udp` emits, when the flags byte is exactly `0x10` (the only
case the `data[0] == 0x10` guard forwards), exactly one `/h10/hr` message
with the decoded heart rate followed by one `/h10/rr` message per decoded
RR-interval, in buffer order; for any other flags byte it emits no
messages at all. -/
theorem c2_dispatch_order (b0 d1 : Nat) (rest : List Nat) :
    send_hr_data_udp (b0 :: d1 :: rest) =
      some (if b0 = 0x10 then
        ("/h10/hr", d1) :: (rrIntervals rest).map fun rr => ("/h10/rr", rr)
      else []) := by
  by_cases h : b0 = 0x10
  · subst h
    simp [send_hr_data_udp, GattHeartRate.decode]
  · simp [send_hr_data_udp, GattHeartRate.decode, h]

/-- C3 counterexample: flags byte `0x00` has the r_r_interval bit (bit 4)
clear, yet `GattHeartRate` still decodes the trailing bytes `E8 03` into
the RR-interval `1000` — the decoder never consults the flag. -/
theorem c3_counterexample :
    flag 0x00 4 = false ∧
    (GattHeartRate.decode [0x00, 72, 0xE8, 0x03]).map
      GattHeartRate.rr_intervals = some [1000] ∧
    some [1000] ≠ some ([] : List Nat) := by
  refine ⟨rfl, rfl, by decide⟩

/-- C3 amended: `GattHeartRate` reads RR-intervals from offset 2 to the end
of the buffer unconditionally, ignoring the r_r_interval flag; the decoded
RR-interval sequence is empty exactly when no bytes remain after the
heart-rate field. -/
theorem c3_rr_ignores_flag (b0 b1 : Nat) (rest : List Nat) :
    (GattHeartRate.decode (b0 :: b1 :: rest)).map GattHeartRate.rr_intervals
      = some (rrIntervals rest) ∧
    (rrIntervals rest = [] ↔ rest = []) := by
  exact ⟨by simp [GattHeartRate.decode], rrIntervals_eq_nil_iff rest⟩

/-- C4 counterexample: buffer `01 48 01` has the wide_int bit set, so the
claim requires heart rate `read_unsigned(buffer, 1, 2) = 328`; the code
decodes `bytes[1] = 72`. -/
theorem c4_counterexample :
    flag 0x01 0 = true ∧
    (GattHeartRate.decode [0x01, 0x48, 0x01]).map GattHeartRate.heart_rate
      = some 72 ∧
    convert_to_unsigned_long [0x01, 0x48, 0x01] 1 2 = 328 ∧
    (72 : Nat) ≠ 328 := by
  refine ⟨rfl, rfl, rfl, by decide⟩

/-- C4 amended: regardless of the wide_int flag, `GattHeartRate` always
takes the heart rate from the single byte at offset 1 and reads the next
field (RR-intervals) starting at offset 2. -/
theorem c4_heart_rate_always_byte1 (b0 b1 : Nat) (rest : List Nat) :
    (GattHeartRate.decode (b0 :: b1 :: rest)).map GattHeartRate.heart_rate
      = some b1 ∧
    (GattHeartRate.decode (b0 :: b1 :: rest)).map GattHeartRate.rr_intervals
      = some (rrIntervals rest) := by
  exact ⟨by simp [GattHeartRate.decode], by simp [GattHeartRate.decode]⟩

/-- C6 counterexample: `send_osc_int("/h10/hr", 72)` builds a 16-byte
datagram, not a 20-byte one: `"/h10/hr"` is 7 ASCII bytes padded to 8,
not 12. -/
theorem c6_counterexample :
    (send_osc_int "/h10/hr" 72).map List.length = some 16 ∧
    some (16 : Nat) ≠ some (20 : Nat) := by
  refine ⟨rfl, by decide⟩

/-- C6 amended: `send_osc_int("/h10/hr", 72)` produces the 16-byte buffer
consisting of the 8-byte encoded address-pattern string, the 4-byte
encoded `",i"` type-tag string, and the 4-byte big-endian value 72. -/
theorem c6_message_bytes :
    send_osc_int "/h10/hr" 72 =
      some [0x2F, 0x68, 0x31, 0x30, 0x2F, 0x68, 0x72, 0x00,
            0x2C, 0x69, 0x00, 0x00, 0x00, 0x00, 0x00, 0x48] ∧
    osc_string "/h10/hr" =
      some [0x2F, 0x68, 0x31, 0x30, 0x2F, 0x68, 0x72, 0x00] ∧
    osc_string ",i" = some [0x2C, 0x69, 0x00, 0x00] ∧
    to_bytes_4_big_signed 72 = some [0x00, 0x00, 0x00, 0x48] ∧
    (send_osc_int "/h10/hr" 72).map List.length = some (8 + 4 + 4) := by
  refine ⟨rfl, rfl, rfl, rfl, rfl⟩

/-- C7: for every ASCII string, `osc_string` appends between 1 and 4 null
bytes to the ASCII encoding so that the total length is a multiple of 4;
when the ASCII length is already a multiple of 4, exactly 4 nulls are
appended. -/
theorem c7_osc_string_padding (s : String)
    (h : s.data.all (fun c => c.toNat < 128) = true) :
    ∃ asc, str_encode_ascii s = some asc ∧
      osc_string s = some (asc ++ List.replicate (4 - asc.length % 4) 0) ∧
      1 ≤ 4 - asc.length % 4 ∧ 4 - asc.length % 4 ≤ 4 ∧
      (asc ++ List.replicate (4 - asc.length % 4) 0).length % 4 = 0 ∧
      (asc.length % 4 = 0 → 4 - asc.length % 4 = 4) := by
  have hasc : str_encode_ascii s = some (s.data.map Char.toNat) := by
    rw [str_encode_ascii, if_pos h]
  refine ⟨s.data.map Char.toNat, hasc, ?_, ?_, ?_, ?_, ?_⟩
  · rw [osc_string, hasc]
    rfl
  · have := Nat.mod_lt (s.data.map Char.toNat).length (show 0 < 4 by omega)
    omega
  · omega
  · simp only [List.length_append, List.length_replicate]
    have := Nat.mod_lt (s.data.map Char.toNat).length (show 0 < 4 by omega)
    omega
  · intro h4
    omega

/-- Witness for C7 at the address pattern `"/h10"`, whose ASCII length 4 is
already a multiple of 4 and receives a full 4-byte null pad. -/
theorem c7_osc_string_padding_witness :
    ∃ asc, str_encode_ascii "/h10" = some asc ∧
      osc_string "/h10" =
        some (asc ++ List.replicate (4 - asc.length % 4) 0) ∧
      1 ≤ 4 - asc.length % 4 ∧ 4 - asc.length % 4 ≤ 4 ∧
      (asc ++ List.replicate (4 - asc.length % 4) 0).length % 4 = 0 ∧
      (asc.length % 4 = 0 → 4 - asc.length % 4 = 4) :=
  c7_osc_string_padding "/h10" (by decide)

/-- C8: decoding a PMD feature-response buffer whose first byte is `0x0F`
and re-deriving the bitfield from the six booleans reproduces byte 1
restricted to bits {0,1,2,3,5,6} (mask `0x6F`, so bit 4 is ignored);
decoding fails whenever the first byte is not `0x0F`. -/
theorem c8_feature_roundtrip (b0 b1 : Nat) (rest : List Nat)
    (hb1 : b1 < 256) :
    (∀ f : PolarFeatures, PolarFeatures.decode (b0 :: b1 :: rest) = some f →
      f.toBits = b1 &&& 0x6F) ∧
    (b0 ≠ 0x0F → PolarFeatures.decode (b0 :: b1 :: rest) = none) := by
  constructor
  · intro f hf
    by_cases h : b0 = 0x0F
    · rw [PolarFeatures.decode] at hf
      rw [if_pos h] at hf
      obtain rfl := Option.some.inj hf
      exact toBits_of_flags b1 hb1
    · rw [PolarFeatures.decode, if_neg h] at hf
      exact absurd hf (by simp)
  · intro h
    rw [PolarFeatures.decode, if_neg h]

/-- Witness for C8 at the buffer `0F AA`: all features whose bits sit in
`0xAA`'s positions, and the masked roundtrip value `0xAA &&& 0x6F`. -/
theorem c8_feature_roundtrip_witness :
    (∀ f : PolarFeatures, PolarFeatures.decode [0x0F, 0xAA] = some f →
      f.toBits = 0xAA &&& 0x6F) ∧
    ((0x0F : Nat) ≠ 0x0F → PolarFeatures.decode [0x0F, 0xAA] = none) :=
  c8_feature_roundtrip 0x0F 0xAA [] (by decide)

/-- C9 counterexample: with `offset + length` past the end of the buffer the
extraction functions do not fail — Python slicing truncates, so
`convert_array_to_signed_int([0xFF], 0, 3)` returns `-1` (decoded from the
single available byte) and `convert_to_unsigned_long([0x01], 0, 8)`
returns `1`. -/
theorem c9_counterexample :
    convert_array_to_signed_int [0xFF] 0 3 = -1 ∧
    convert_to_unsigned_long [0x01] 0 8 = 1 ∧
    ([0xFF] : List Nat).length < 0 + 3 ∧
    ([0x01] : List Nat).length < 0 + 8 := by
  decide

/-- C9 amended: when `offset + length` exceeds the buffer length the
functions return the integer decoded from the truncated slice
`data[offset:]`, which holds fewer than `length` bytes whenever `offset`
is within the buffer. -/
theorem c9_slice_truncates (data : List Nat) (offset length : Nat)
    (h : data.length < offset + length) :
    convert_array_to_signed_int data offset length =
      signedLE (data.drop offset) ∧
    convert_to_unsigned_long data offset length =
      unsignedLE (data.drop offset) ∧
    (offset ≤ data.length → (data.drop offset).length < length) := by
  have hle : (data.drop offset).length ≤ length := by
    rw [List.length_drop]
    omega
  have htake : (data.drop offset).take length = data.drop offset :=
    List.take_of_length_le hle
  refine ⟨?_, ?_, ?_⟩
  · rw [convert_array_to_signed_int, htake]
  · rw [convert_to_unsigned_long, htake]
  · intro hoff
    rw [List.length_drop]
    omega

/-- Witness for C9's amended theorem at `data = [0xFF]`, `offset = 0`,
`length = 3`. -/
theorem c9_slice_truncates_witness :
    convert_array_to_signed_int [0xFF] 0 3 =
      signedLE (List.drop 0 [0xFF]) ∧
    convert_to_unsigned_long [0xFF] 0 3 =
      unsignedLE (List.drop 0 [0xFF]) ∧
    (0 ≤ ([0xFF] : List Nat).length →
      (List.drop 0 [0xFF]).length < 3) :=
  c9_slice_truncates [0xFF] 0 3 (by decide)

end Biofeed
